import Mathlib

/-!
Verification of the backfill-archive core of `scripts/backfill_archives.py`.

The script walks the git history of a tracked JSON file, selects one commit
per calendar day, and materializes per-day archive files (a content snapshot
and a statistics snapshot).  The shallow embedding below models:

* the filesystem as a function from paths to optional file contents,
* the external processes (`git log`, `git show`, `json.loads`) as oracle
  parameters, where `none` / `.error` model a failing invocation, and
* `sys.exit` inside `run_git` as an `exited` outcome that aborts the run.

File contents are kept structured (`FileContent`); `json.dump` is a
deterministic function of the structured value, so equality of structured
contents models byte-identity of the written files.
-/

namespace Backfill

/-- One record of the tracked file's top-level `datasets` collection.  Each
field is optional, mirroring Python's `d.get(key, default)` access. -/
structure DatasetRecord where
  downloads : Option Int := none
  likes : Option Int := none
  languages : Option (List String) := none
deriving DecidableEq

/-- The result of `json.loads` on the tracked file: whether the top-level
`datasets` key is present, and the record list bound to it (the value of
`data.get("datasets", [])` when present). -/
structure ParsedData where
  hasDatasets : Bool
  datasets : List DatasetRecord
deriving DecidableEq

/-- The statistics dictionary built by `compute_statistics`. -/
structure Statistics where
  total_datasets : Nat
  total_downloads : Int
  total_likes : Int
  multilingual_count : Nat
deriving DecidableEq

/-- Structured contents of an archive file: either a dataset snapshot
(`json.dump(data, ...)`) or a statistics document
(`json.dump({"last_updated": ..., "statistics": ...})`). -/
inductive FileContent where
  | dataFile (data : ParsedData)
  | statsFile (lastUpdated : String) (stats : Statistics)
deriving DecidableEq

/-- The filesystem: a map from path to the file stored there, if any. -/
abbrev FS : Type := String → Option FileContent

/-- An empty filesystem (e.g. a fresh archive directory). -/
def emptyFS : FS := fun _ => none

/-- Writing file `v` at path `p` (the `open(...,'w')` + `json.dump` pair). -/
def update (fs : FS) (p : String) (v : FileContent) : FS :=
  fun q => if q = p then some v else fs q

/-- `DATA_FILE` from the script. -/
def DATA_FILE : String := "docs/data/japanese_datasets.json"

/-- `ARCHIVE_DIR` from the script. -/
def ARCHIVE_DIR : String := "docs/data/archive"

/-- `date_str.replace('-','')`: drop every hyphen character. -/
def stripDashes (s : String) : String :=
  String.mk (s.data.filter (fun c => c ≠ '-'))

/-- `os.path.join(ARCHIVE_DIR, f"japanese_datasets_{yyyymmdd}.json")`. -/
def dsPath (date : String) : String :=
  ARCHIVE_DIR ++ "/japanese_datasets_" ++ stripDashes date ++ ".json"

/-- `os.path.join(ARCHIVE_DIR, f"statistics_{yyyymmdd}.json")`. -/
def stPath (date : String) : String :=
  ARCHIVE_DIR ++ "/statistics_" ++ stripDashes date ++ ".json"

/-- Split a character list into the chunks delimited by characters
satisfying `p` (delimiters dropped, empty chunks kept). -/
def splitWhen (p : Char → Bool) : List Char → List (List Char)
  | [] => [[]]
  | x :: xs =>
    let r := splitWhen p xs
    if p x then [] :: r
    else
      match r with
      | [] => [[x]]
      | g :: gs => (x :: g) :: gs

/-- `str.splitlines()` for newline-separated tool output. -/
def splitLines (s : String) : List String :=
  (splitWhen (fun c => c = '\n') s.data).map String.mk

/-- Python's `str.split()`: split on whitespace runs, dropping empty fields. -/
def pySplit (s : String) : List String :=
  ((splitWhen Char.isWhitespace s.data).map String.mk).filter (fun t => t ≠ "")

/-- `get_commits`, applied to the (already stripped) stdout of
`git log --pretty=format:%H %ad --date=short -- DATA_FILE`: keep the lines
with at least two whitespace-separated fields, as (hash, date) pairs. -/
def get_commits (out : String) : List (String × String) :=
  (splitLines out).filterMap (fun line =>
    match pySplit line with
    | a :: b :: _ => some (a, b)
    | _ => none)

/-- In-place value assignment of an `OrderedDict` for a key that is already
present: the entry keeps its position, only the value changes. -/
def updateVal : List (String × String) → String → String → List (String × String)
  | [], _, _ => []
  | (k, v) :: rest, key, newV =>
    if k = key then (k, newV) :: rest else (k, v) :: updateVal rest key newV

/-- The loop body of `choose_daily`, iterating over the reversed (oldest
first) commit list and threading the ordered day → sha mapping. -/
def chooseDailyGo (strategy : String) : List (String × String) → List (String × String) → List (String × String)
  | [], mapping => mapping
  | (sha, date) :: rest, mapping =>
    if date ∈ mapping.map Prod.fst then
      if strategy = "last" then chooseDailyGo strategy rest (updateVal mapping date sha)
      else chooseDailyGo strategy rest mapping
    else chooseDailyGo strategy rest (mapping ++ [(date, sha)])

/-- `choose_daily(commits, strategy)`: raises `ValueError` unless the
strategy is `last` or `first`, then reverses the commit list to oldest-first
order and picks one sha per distinct date. -/
def choose_daily (commits : List (String × String)) (strategy : String) :
    Except String (List (String × String)) :=
  if strategy = "last" ∨ strategy = "first" then
    .ok (chooseDailyGo strategy commits.reverse [])
  else
    .error "strategy must be last or first"

/-- `load_dataset(raw)`: `json.loads` (the oracle `jl`) followed by the
required-key check; both failure modes are `ValueError`s. -/
def load_dataset (jl : String → Except String ParsedData) (raw : String) :
    Except String ParsedData :=
  match jl raw with
  | .error e => .error e
  | .ok data =>
    if data.hasDatasets then .ok data else .error "Missing \x27datasets\x27 key"

/-- `compute_statistics(datasets)`. -/
def compute_statistics (datasets : List DatasetRecord) : Statistics :=
  { total_datasets := datasets.length,
    total_downloads := (datasets.map (fun d => d.downloads.getD 0)).sum,
    total_likes := (datasets.map (fun d => d.likes.getD 0)).sum,
    multilingual_count :=
      (datasets.filter (fun d => 1 < (d.languages.getD []).length)).length }

/-- The per-day outcome dictionary built by `backfill`. -/
structure DayStatus where
  date : String
  commit : String
  dataset : String
  stats : String
  note : Option String := none
  error : Option String := none
deriving DecidableEq

/-- The `note = "present"` outcome of the both-artifacts-exist branch. -/
def presentStatus (date sha : String) : DayStatus :=
  { date := date, commit := sha, dataset := "skip", stats := "skip",
    note := some "present" }

/-- The dry-run outcome: `would_create` per missing artifact, `exists` per
present one. -/
def dryStatus (fs : FS) (date sha : String) : DayStatus :=
  { date := date, commit := sha,
    dataset := if (fs (dsPath date)).isNone then "would_create" else "exists",
    stats := if (fs (stPath date)).isNone then "would_create" else "exists" }

/-- The outcome of a day whose fetched content failed to parse. -/
def errorStatus (date sha msg : String) : DayStatus :=
  { date := date, commit := sha, dataset := "skip", stats := "skip",
    error := some msg }

/-- The outcome of a successful day: `created` per artifact that was
missing before the day was processed, `exists` per present one. -/
def createdStatus (fs : FS) (date sha : String) : DayStatus :=
  { date := date, commit := sha,
    dataset := if (fs (dsPath date)).isNone then "created" else "exists",
    stats := if (fs (stPath date)).isNone then "created" else "exists" }

/-- The write phase of a successful day: dump the parsed data if the content
artifact was missing, then dump the statistics document if the statistics
artifact was missing (`need_ds` / `need_st` are both computed on the state
before either write, as in the script). -/
def writeArtifacts (fs : FS) (date : String) (data : ParsedData) : FS :=
  let fs1 :=
    if (fs (dsPath date)).isNone then update fs (dsPath date) (.dataFile data)
    else fs
  if (fs (stPath date)).isNone then
    update fs1 (stPath date)
      (.statsFile (date ++ "T00:00:00")
        (compute_statistics (if data.hasDatasets then data.datasets else [])))
  else fs1

/-- Result of processing one day: either the loop continues with an updated
filesystem and the day's outcome, or `run_git` called `sys.exit(code)`. -/
inductive StepResult where
  | ok (fs : FS) (st : DayStatus)
  | exited (fs : FS) (code : Nat)

/-- One iteration of the `backfill` loop for the day `(date, sha)`.
`gs` is the `git show {sha}:{DATA_FILE}` oracle (`none` = the git command
failed, upon which `run_git` exits with code 1); `jl` is the `json.loads`
oracle. -/
def processDay (gs : String → Option String) (jl : String → Except String ParsedData)
    (dryRun : Bool) (fs : FS) (day : String × String) : StepResult :=
  if !((fs (dsPath day.1)).isNone || (fs (stPath day.1)).isNone) then
    .ok fs (presentStatus day.1 day.2)
  else if dryRun then
    .ok fs (dryStatus fs day.1 day.2)
  else
    match gs day.2 with
    | none => .exited fs 1
    | some raw =>
      match load_dataset jl raw with
      | .error e => .ok fs (errorStatus day.1 day.2 e)
      | .ok data =>
        .ok (writeArtifacts fs day.1 data) (createdStatus fs day.1 day.2)

/-- Result of the whole `backfill` call: the final filesystem and the
per-day results, or an abort via `sys.exit(code)` carrying the results
accumulated before the abort. -/
inductive RunResult where
  | ok (fs : FS) (results : List (String × DayStatus))
  | exited (fs : FS) (results : List (String × DayStatus)) (code : Nat)

/-- The `backfill` loop over the remaining days, threading the filesystem
and the accumulated `results` association list. -/
def backfillFrom (gs : String → Option String) (jl : String → Except String ParsedData)
    (dryRun : Bool) : FS → List (String × DayStatus) → List (String × String) → RunResult
  | fs, acc, [] => .ok fs acc
  | fs, acc, day :: rest =>
    match processDay gs jl dryRun fs day with
    | .ok fs2 st => backfillFrom gs jl dryRun fs2 (acc ++ [(day.1, st)]) rest
    | .exited fs2 code => .exited fs2 acc code

/-- `backfill(mapping, dry_run)` over an ordered day → sha mapping. -/
def backfill (gs : String → Option String) (jl : String → Except String ParsedData)
    (mapping : List (String × String)) (dryRun : Bool) (fs : FS) : RunResult :=
  backfillFrom gs jl dryRun fs [] mapping

/-- `main()`: returns the final filesystem and the process exit code.
`isGitRoot` models `os.path.isdir('.git')`; `gitLog` is the
`git log` oracle (`none` = the git command failed, upon which `run_git`
exits with code 1); an uncaught `ValueError` from `choose_daily` also ends
the process with exit code 1. -/
def mainRun (isGitRoot : Bool) (gitLog : Option String)
    (gs : String → Option String) (jl : String → Except String ParsedData)
    (dryRun : Bool) (strategy : String) (fs : FS) : FS × Nat :=
  if isGitRoot then
    match gitLog with
    | none => (fs, 1)
    | some out =>
      if (get_commits out).isEmpty then (fs, 0)
      else
        match choose_daily (get_commits out) strategy with
        | .error _ => (fs, 1)
        | .ok mapping =>
          match backfill gs jl mapping dryRun fs with
          | .ok fs2 _ => (fs2, 0)
          | .exited fs2 _ code => (fs2, code)
  else (fs, 1)

/-! ### Auxiliary definitions used by the specification theorems -/

/-- After a completed non-dry run with final filesystem `fsF`, each day of
the mapping either has both of its artifacts on disk, or its fetched
content fails to parse (deterministically, so a re-run hits the same
error). -/
def dayProp (gs : String → Option String) (jl : String → Except String ParsedData)
    (fsF : FS) (day : String × String) : Prop :=
  ((fsF (dsPath day.1)).isSome = true ∧ (fsF (stPath day.1)).isSome = true) ∨
  (∃ raw e, gs day.2 = some raw ∧ load_dataset jl raw = .error e)

/-- Append a key to the list unless it is already there: one step of
first-occurrence key collection. -/
def insertNew (ks : List String) (d : String) : List String :=
  if d ∈ ks then ks else ks ++ [d]

/-- The distinct entries of `ds` in order of first occurrence: the key
order an insertion-ordered dictionary accumulates over `ds`. -/
def firstOccurrences (ds : List String) : List String :=
  ds.foldl insertNew []

/-- The reading of `multilingual_count` asserted by the specification: the
number of records whose language-tag collection has more than one DISTINCT
entry.  (The script counts list length instead, without deduplication.) -/
def multilingual_distinct_count (datasets : List DatasetRecord) : Nat :=
  (datasets.filter (fun d => 1 < (d.languages.getD []).dedup.length)).length

/-- Oracle for tests: every `git show` succeeds with the same raw payload. -/
def gsW : String → Option String := fun _ => some "raw"

/-- Oracle for tests: every `git show` invocation fails. -/
def gsFail : String → Option String := fun _ => none

/-- Oracle for tests: `json.loads` always succeeds with an empty dataset
collection under a present `datasets` key. -/
def jlW : String → Except String ParsedData := fun _ => .ok ⟨true, []⟩

/-- Oracle for tests: `json.loads` always raises a decode error. -/
def jlBad : String → Except String ParsedData := fun _ => .error "bad json"

/-- The filesystem produced by archiving day 2024-01-01 into an empty
archive directory with the `jlW` payload. -/
def fsW : FS := writeArtifacts emptyFS "2024-01-01" ⟨true, []⟩

/-- A filesystem holding both artifacts of day 2024-01-01. -/
def fsBoth : FS :=
  update (update emptyFS (dsPath "2024-01-01") (.dataFile ⟨true, []⟩))
    (stPath "2024-01-01") (.statsFile "x" ⟨0, 0, 0, 0⟩)

/-- A filesystem holding only the content artifact of day 2024-01-01. -/
def fsDs : FS := update emptyFS (dsPath "2024-01-01") (.dataFile ⟨true, []⟩)

/-- The per-day results carried by a run result (complete or aborted). -/
def RunResult.results : RunResult → List (String × DayStatus)
  | .ok _ res => res
  | .exited _ res _ => res

/-- The statistics document written for a day: `{"last_updated":
f"{date_str}T00:00:00", "statistics": compute_statistics(data.get("datasets",
[]))}`. -/
def statsDoc (date : String) (data : ParsedData) : FileContent :=
  .statsFile (date ++ "T00:00:00")
    (compute_statistics (if data.hasDatasets then data.datasets else []))

/-! ### Basic facts about filesystem updates and the write phase -/

theorem update_isSome_mono (fs : FS) (p : String) (v : FileContent) (q : String)
    (hq : (fs q).isSome = true) : ((update fs p v) q).isSome = true := by
  unfold update
  split <;> simp [hq]

theorem update_ne (fs : FS) (p : String) (v : FileContent) (q : String)
    (hq : q ≠ p) : (update fs p v) q = fs q := by
  unfold update
  exact if_neg hq

theorem update_self (fs : FS) (p : String) (v : FileContent) :
    (update fs p v) p = some v := by
  unfold update
  exact if_pos rfl

theorem isSome_of_isNone_false {α : Type} {o : Option α} (h : o.isNone = false) :
    o.isSome = true := by
  cases o <;> simp_all

theorem writeArtifacts_mono (fs : FS) (date : String) (data : ParsedData) (q : String)
    (hq : (fs q).isSome = true) : ((writeArtifacts fs date data) q).isSome = true := by
  simp only [writeArtifacts]
  split
  · refine update_isSome_mono _ _ _ _ ?_
    split
    · exact update_isSome_mono _ _ _ _ hq
    · exact hq
  · split
    · exact update_isSome_mono _ _ _ _ hq
    · exact hq

theorem writeArtifacts_present (fs : FS) (date : String) (data : ParsedData) :
    ((writeArtifacts fs date data) (dsPath date)).isSome = true ∧
    ((writeArtifacts fs date data) (stPath date)).isSome = true := by
  have hds : ((if (fs (dsPath date)).isNone then
      update fs (dsPath date) (.dataFile data) else fs) (dsPath date)).isSome = true := by
    split
    · rw [update_self]; rfl
    · rename_i hds0
      cases hx : fs (dsPath date) <;> simp_all
  constructor
  · simp only [writeArtifacts]
    split
    · exact update_isSome_mono _ _ _ _ hds
    · exact hds
  · simp only [writeArtifacts]
    split
    · rw [update_self]; rfl
    · rename_i hst
      have hst' : (fs (stPath date)).isSome = true := by
        cases hx : fs (stPath date) <;> simp_all
      split
      · exact update_isSome_mono _ _ _ _ hst'
      · exact hst'

/-! ### Branch equations for the per-day loop body -/

theorem processDay_both_present (gs : String → Option String)
    (jl : String → Except String ParsedData) (dr : Bool) {fs : FS} {day : String × String}
    (h1 : (fs (dsPath day.1)).isSome = true) (h2 : (fs (stPath day.1)).isSome = true) :
    processDay gs jl dr fs day = .ok fs (presentStatus day.1 day.2) := by
  obtain ⟨a, ha⟩ := Option.isSome_iff_exists.1 h1
  obtain ⟨b, hb⟩ := Option.isSome_iff_exists.1 h2
  simp [processDay, ha, hb]

theorem processDay_dry (gs : String → Option String)
    (jl : String → Except String ParsedData) (fs : FS) (day : String × String) :
    processDay gs jl true fs day =
      .ok fs (if !((fs (dsPath day.1)).isNone || (fs (stPath day.1)).isNone)
              then presentStatus day.1 day.2 else dryStatus fs day.1 day.2) := by
  simp only [processDay]
  split <;> rename_i h <;> simp [h]

theorem processDay_fetch_fail (gs : String → Option String)
    (jl : String → Except String ParsedData) {fs : FS} {day : String × String}
    (hm : ((fs (dsPath day.1)).isNone || (fs (stPath day.1)).isNone) = true)
    (hgs : gs day.2 = none) :
    processDay gs jl false fs day = .exited fs 1 := by
  simp [processDay, hm, hgs]

theorem processDay_parse_error (gs : String → Option String)
    (jl : String → Except String ParsedData) {fs : FS} {day : String × String} {raw e : String}
    (hm : ((fs (dsPath day.1)).isNone || (fs (stPath day.1)).isNone) = true)
    (hgs : gs day.2 = some raw) (hld : load_dataset jl raw = .error e) :
    processDay gs jl false fs day = .ok fs (errorStatus day.1 day.2 e) := by
  simp [processDay, hm, hgs, hld]

theorem processDay_success (gs : String → Option String)
    (jl : String → Except String ParsedData) {fs : FS} {day : String × String} {raw : String}
    {data : ParsedData}
    (hm : ((fs (dsPath day.1)).isNone || (fs (stPath day.1)).isNone) = true)
    (hgs : gs day.2 = some raw) (hld : load_dataset jl raw = .ok data) :
    processDay gs jl false fs day =
      .ok (writeArtifacts fs day.1 data) (createdStatus fs day.1 day.2) := by
  simp [processDay, hm, hgs, hld]

/-! ### Case analysis of a non-dry-run day that did not abort -/

theorem processDay_ok_cases {gs : String → Option String}
    {jl : String → Except String ParsedData} {fs fs2 : FS} {day : String × String}
    {st : DayStatus} (h : processDay gs jl false fs day = .ok fs2 st) :
    ((fs2 (dsPath day.1)).isSome = true ∧ (fs2 (stPath day.1)).isSome = true ∧
      (fs2 = fs ∨ ∃ data, fs2 = writeArtifacts fs day.1 data) ∧
      (st = presentStatus day.1 day.2 ∨ st = createdStatus fs day.1 day.2)) ∨
    (∃ raw e, gs day.2 = some raw ∧ load_dataset jl raw = .error e ∧
      fs2 = fs ∧ st = errorStatus day.1 day.2 e) := by
  by_cases hb : (fs (dsPath day.1)).isSome = true ∧ (fs (stPath day.1)).isSome = true
  · rw [processDay_both_present gs jl false hb.1 hb.2] at h
    obtain ⟨rfl, rfl⟩ : fs = fs2 ∧ presentStatus day.1 day.2 = st := by
      cases h; exact ⟨rfl, rfl⟩
    exact .inl ⟨hb.1, hb.2, .inl rfl, .inl rfl⟩
  · have hm : ((fs (dsPath day.1)).isNone || (fs (stPath day.1)).isNone) = true := by
      cases hx : fs (dsPath day.1) <;> cases hy : fs (stPath day.1) <;> simp_all
    cases hgs : gs day.2 with
    | none =>
      rw [processDay_fetch_fail gs jl hm hgs] at h
      exact (StepResult.noConfusion h)
    | some raw =>
      cases hld : load_dataset jl raw with
      | error e =>
        rw [processDay_parse_error gs jl hm hgs hld] at h
        obtain ⟨rfl, rfl⟩ : fs = fs2 ∧ errorStatus day.1 day.2 e = st := by
          cases h; exact ⟨rfl, rfl⟩
        exact .inr ⟨raw, e, rfl, hld, rfl, rfl⟩
      | ok data =>
        rw [processDay_success gs jl hm hgs hld] at h
        obtain ⟨rfl, rfl⟩ :
            writeArtifacts fs day.1 data = fs2 ∧ createdStatus fs day.1 day.2 = st := by
          cases h; exact ⟨rfl, rfl⟩
        refine .inl ⟨(writeArtifacts_present fs day.1 data).1,
          (writeArtifacts_present fs day.1 data).2, .inr ⟨data, rfl⟩, .inr rfl⟩

/-! ### Monotonicity of a completed run: files are never removed -/

theorem processDay_ok_mono {gs : String → Option String}
    {jl : String → Except String ParsedData} {fs fs2 : FS} {day : String × String}
    {st : DayStatus} (h : processDay gs jl false fs day = .ok fs2 st) :
    ∀ q, (fs q).isSome = true → (fs2 q).isSome = true := by
  intro q hq
  rcases processDay_ok_cases h with ⟨_, _, hfs, _⟩ | ⟨_, _, _, _, rfl, _⟩
  · rcases hfs with rfl | ⟨data, rfl⟩
    · exact hq
    · exact writeArtifacts_mono _ _ _ _ hq
  · exact hq

theorem backfillFrom_ok_mono {gs : String → Option String}
    {jl : String → Except String ParsedData} {fsF : FS}
    {res : List (String × DayStatus)} :
    ∀ {days : List (String × String)} {fs : FS} {acc : List (String × DayStatus)},
      backfillFrom gs jl false fs acc days = .ok fsF res →
      ∀ q, (fs q).isSome = true → (fsF q).isSome = true := by
  intro days
  induction days with
  | nil =>
    intro fs acc h q hq
    obtain ⟨rfl, rfl⟩ : fs = fsF ∧ acc = res := by cases h; exact ⟨rfl, rfl⟩
    exact hq
  | cons day rest ih =>
    intro fs acc h q hq
    simp only [backfillFrom] at h
    cases hp : processDay gs jl false fs day with
    | ok fs2 st =>
      rw [hp] at h
      exact ih h q (processDay_ok_mono hp q hq)
    | exited fs2 code =>
      rw [hp] at h
      exact (RunResult.noConfusion h)

/-! ### What a completed first run guarantees about each day -/

theorem run1_days {gs : String → Option String}
    {jl : String → Except String ParsedData} {fsF : FS} {res : List (String × DayStatus)} :
    ∀ {days : List (String × String)} {fs : FS} {acc : List (String × DayStatus)},
      backfillFrom gs jl false fs acc days = .ok fsF res →
      ∀ day ∈ days, dayProp gs jl fsF day := by
  intro days
  induction days with
  | nil => intro fs acc _ day hd; cases hd
  | cons day rest ih =>
    intro fs acc h d hd
    simp only [backfillFrom] at h
    cases hp : processDay gs jl false fs day with
    | ok fs2 st =>
      rw [hp] at h
      rcases List.mem_cons.1 hd with rfl | hd'
      · rcases processDay_ok_cases hp with ⟨hs1, hs2, _, _⟩ | ⟨raw, e, hgs, hld, _, _⟩
        · exact .inl ⟨backfillFrom_ok_mono h _ hs1, backfillFrom_ok_mono h _ hs2⟩
        · exact .inr ⟨raw, e, hgs, hld⟩
      · exact ih h d hd'
    | exited fs2 code =>
      rw [hp] at h
      exact (RunResult.noConfusion h)

theorem run1_created {gs : String → Option String}
    {jl : String → Except String ParsedData} {fsF : FS} {res : List (String × DayStatus)} :
    ∀ {days : List (String × String)} {fs : FS} {acc : List (String × DayStatus)},
      backfillFrom gs jl false fs acc days = .ok fsF res →
      ∀ date st, (date, st) ∈ res → (date, st) ∈ acc ∨
        (st.dataset = "created" → st.stats = "created" →
          ((date, st.commit) ∈ days ∧
           (fsF (dsPath date)).isSome = true ∧ (fsF (stPath date)).isSome = true)) := by
  intro days
  induction days with
  | nil =>
    intro fs acc h date st hst
    obtain ⟨rfl, rfl⟩ : fs = fsF ∧ acc = res := by cases h; exact ⟨rfl, rfl⟩
    exact .inl hst
  | cons day rest ih =>
    intro fs acc h date st hst
    simp only [backfillFrom] at h
    cases hp : processDay gs jl false fs day with
    | ok fs2 st0 =>
      rw [hp] at h
      rcases ih h date st hst with hacc | hP
      · rcases List.mem_append.1 hacc with h1 | h2
        · exact .inl h1
        · obtain ⟨rfl, rfl⟩ : date = day.1 ∧ st = st0 := by
            simpa using h2
          right
          intro hcd hcs
          rcases processDay_ok_cases hp with ⟨_, _, _, hshape⟩ | ⟨raw, e, _, _, _, rfl⟩
          · rcases hshape with rfl | rfl
            · exact absurd hcd (by simp [presentStatus])
            · have hcommit : (createdStatus fs day.1 day.2).commit = day.2 := rfl
              refine ⟨?_, ?_, ?_⟩
              · rw [hcommit]
                exact List.mem_cons_self _ _
              · have hds : ((fs (dsPath day.1)).isNone : Bool) = true := by
                  by_contra hc
                  simp [createdStatus, hc] at hcd
                have hst2 : (fs2 (dsPath day.1)).isSome = true := by
                  rcases processDay_ok_cases hp with ⟨hs1, _, _, _⟩ | ⟨_, _, _, _, _, habs⟩
                  · exact hs1
                  · rw [habs] at hcd
                    exact absurd hcd (by simp [errorStatus])
                exact backfillFrom_ok_mono h _ hst2
              · have hst2 : (fs2 (stPath day.1)).isSome = true := by
                  rcases processDay_ok_cases hp with ⟨_, hs2, _, _⟩ | ⟨_, _, _, _, _, habs⟩
                  · exact hs2
                  · rw [habs] at hcd
                    exact absurd hcd (by simp [errorStatus])
                exact backfillFrom_ok_mono h _ hst2
          · exact absurd hcd (by simp [errorStatus])
      · right
        intro hcd hcs
        obtain ⟨hmem, hs1, hs2⟩ := hP hcd hcs
        exact ⟨List.mem_cons_of_mem _ hmem, hs1, hs2⟩
    | exited fs2 code =>
      rw [hp] at h
      exact (RunResult.noConfusion h)

/-! ### A run over days that are already settled performs no writes -/

theorem run2_noop (gs : String → Option String) (jl : String → Except String ParsedData)
    (fsF : FS) :
    ∀ (days : List (String × String)) (acc : List (String × DayStatus)),
      (∀ day ∈ days, dayProp gs jl fsF day) →
      ∃ res2, backfillFrom gs jl false fsF acc days = .ok fsF res2 ∧
        (∀ x ∈ acc, x ∈ res2) ∧
        (∀ x ∈ res2, x ∈ acc ∨ (x.2.dataset = "skip" ∧ x.2.stats = "skip")) ∧
        (∀ day ∈ days, (fsF (dsPath day.1)).isSome = true →
          (fsF (stPath day.1)).isSome = true →
          (day.1, presentStatus day.1 day.2) ∈ res2) := by
  intro days
  induction days with
  | nil =>
    intro acc _
    exact ⟨acc, rfl, fun x hx => hx, fun x hx => .inl hx, fun day hd => absurd hd (by simp)⟩
  | cons day rest ih =>
    intro acc hdays
    have hday := hdays day (List.mem_cons_self _ _)
    have hrest : ∀ d ∈ rest, dayProp gs jl fsF d :=
      fun d hd => hdays d (List.mem_cons_of_mem _ hd)
    by_cases hb : (fsF (dsPath day.1)).isSome = true ∧ (fsF (stPath day.1)).isSome = true
    · have hp : processDay gs jl false fsF day = .ok fsF (presentStatus day.1 day.2) :=
        processDay_both_present gs jl false hb.1 hb.2
      obtain ⟨res2, hrun, hacc, hchar, hpres⟩ :=
        ih (acc ++ [(day.1, presentStatus day.1 day.2)]) hrest
      refine ⟨res2, ?_, ?_, ?_, ?_⟩
      · simp only [backfillFrom, hp]
        exact hrun
      · intro x hx
        exact hacc x (List.mem_append.2 (.inl hx))
      · intro x hx
        rcases hchar x hx with hx' | hskip
        · rcases List.mem_append.1 hx' with h1 | h2
          · exact .inl h1
          · right
            obtain rfl : x = (day.1, presentStatus day.1 day.2) := by simpa using h2
            exact ⟨rfl, rfl⟩
        · exact .inr hskip
      · intro d hd hs1 hs2
        rcases List.mem_cons.1 hd with rfl | hd'
        · exact hacc _ (List.mem_append.2 (.inr (by simp)))
        · exact hpres d hd' hs1 hs2
    · have hm : ((fsF (dsPath day.1)).isNone || (fsF (stPath day.1)).isNone) = true := by
        cases hx : fsF (dsPath day.1) <;> cases hy : fsF (stPath day.1) <;> simp_all
      rcases hday with hboth | ⟨raw, e, hgs, hld⟩
      · exact absurd hboth hb
      · have hp : processDay gs jl false fsF day = .ok fsF (errorStatus day.1 day.2 e) :=
          processDay_parse_error gs jl hm hgs hld
        obtain ⟨res2, hrun, hacc, hchar, hpres⟩ :=
          ih (acc ++ [(day.1, errorStatus day.1 day.2 e)]) hrest
        refine ⟨res2, ?_, ?_, ?_, ?_⟩
        · simp only [backfillFrom, hp]
          exact hrun
        · intro x hx
          exact hacc x (List.mem_append.2 (.inl hx))
        · intro x hx
          rcases hchar x hx with hx' | hskip
          · rcases List.mem_append.1 hx' with h1 | h2
            · exact .inl h1
            · right
              obtain rfl : x = (day.1, errorStatus day.1 day.2 e) := by simpa using h2
              exact ⟨rfl, rfl⟩
          · exact .inr hskip
        · intro d hd hs1 hs2
          rcases List.mem_cons.1 hd with rfl | hd'
          · exact absurd ⟨hs1, hs2⟩ hb
          · exact hpres d hd' hs1 hs2

/-! ### Claim theorems -/

/-- C4: materialization is idempotent.  If a non-dry-run backfill over a day
mapping completed with final filesystem `fsF`, running backfill again with
the identical inputs from the unchanged filesystem `fsF` returns the very
same filesystem (so no file is written and every archive file's contents
stay byte-identical), every second-run day reports `skip` statuses (never a
second write), and every day whose two artifacts were `created` on the
first run takes the both-present branch, reported as skip statuses with
note "present". -/
theorem c4_idempotent (gs : String → Option String)
    (jl : String → Except String ParsedData) (mapping : List (String × String))
    (fs fsF : FS) (res1 : List (String × DayStatus))
    (h : backfill gs jl mapping false fs = .ok fsF res1) :
    ∃ res2, backfill gs jl mapping false fsF = .ok fsF res2 ∧
      (∀ x ∈ res2, x.2.dataset = "skip" ∧ x.2.stats = "skip") ∧
      (∀ date st, (date, st) ∈ res1 → st.dataset = "created" → st.stats = "created" →
        (date, presentStatus date st.commit) ∈ res2) := by
  have h' : backfillFrom gs jl false fs [] mapping = .ok fsF res1 := h
  have hdays := run1_days h'
  obtain ⟨res2, hrun, _, hchar, hpres⟩ := run2_noop gs jl fsF mapping [] hdays
  refine ⟨res2, hrun, ?_, ?_⟩
  · intro x hx
    rcases hchar x hx with hin | hskip
    · cases hin
    · exact hskip
  · intro date st hst hcd hcs
    rcases run1_created h' date st hst with hin | hP
    · cases hin
    · obtain ⟨hmem, hs1, hs2⟩ := hP hcd hcs
      exact hpres (date, st.commit) hmem hs1 hs2

/-- Witness for C4: archiving day 2024-01-01 into an empty archive
directory creates both artifacts (a run the theorem's hypothesis accepts,
discharged by `rfl`), and the theorem then puts the day's second-run
outcome, skip statuses with note "present", among the second run's
results. -/
theorem c4_idempotent_witness :
    ("2024-01-01", presentStatus "2024-01-01" "A") ∈
      (backfill gsW jlW [("2024-01-01", "A")] false fsW).results := by
  obtain ⟨res2, hrun, _, hpres⟩ := c4_idempotent gsW jlW [("2024-01-01", "A")] emptyFS fsW
    [("2024-01-01", createdStatus emptyFS "2024-01-01" "A")] rfl
  have hm := hpres "2024-01-01" (createdStatus emptyFS "2024-01-01" "A") (by simp) rfl rfl
  rw [hrun]
  exact hm

/-- C1 counterexample: with a two-day mapping over an empty archive
directory and a `git show` oracle that reports failure, the run aborts at
the first day with process exit code 1: no failure is recorded in any
day's outcome (the result list is empty), the second day is never
processed, and the driver's final exit code is 1, not 0 — contradicting
the claim that the failure is recorded per day, the run continues, and the
exit code stays 0. -/
theorem c1_counterexample :
    backfill gsFail jlW [("2024-01-01", "A"), ("2024-01-02", "B")] false emptyFS
      = .exited emptyFS [] 1 ∧
    (mainRun true (some "B 2024-01-02\nA 2024-01-01") gsFail jlW false "last" emptyFS).2
      = 1 :=
  ⟨rfl, rfl⟩

/-- C1 (amended): when the version-control tool runs but reports failure
while fetching a day's selected revision, `run_git` exits the whole
process with code 1: the failure is not recorded in that day's outcome
(the accumulated results are returned unchanged), no remaining day is
processed, and the final exit code is 1, not 0.  Only structural parse
failures are isolated to the day. -/
theorem c1_fetch_failure_aborts (gs : String → Option String)
    (jl : String → Except String ParsedData) (fs : FS) (date sha : String)
    (acc : List (String × DayStatus)) (rest : List (String × String))
    (hmiss : (fs (dsPath date)).isNone = true ∨ (fs (stPath date)).isNone = true)
    (hgs : gs sha = none) :
    processDay gs jl false fs (date, sha) = .exited fs 1 ∧
    backfillFrom gs jl false fs acc ((date, sha) :: rest) = .exited fs acc 1 := by
  have hm : ((fs (dsPath date)).isNone || (fs (stPath date)).isNone) = true := by
    rcases hmiss with h | h <;> simp [h]
  have hp := @processDay_fetch_fail gs jl fs (date, sha) hm hgs
  exact ⟨hp, by simp only [backfillFrom, hp]⟩

/-- Witness for C1 (amended): a concrete aborted run — empty archive
directory, failing `git show` — stops with exit code 1 and an empty result
list, leaving the following day unprocessed. -/
theorem c1_fetch_failure_aborts_witness :
    processDay gsFail jlW false emptyFS ("2024-01-03", "C") = .exited emptyFS 1 ∧
    backfillFrom gsFail jlW false emptyFS [] [("2024-01-03", "C"), ("2024-01-04", "D")]
      = .exited emptyFS [] 1 :=
  ⟨(c1_fetch_failure_aborts gsFail jlW emptyFS "2024-01-03" "C" []
      [("2024-01-04", "D")] (.inl rfl) rfl).1,
   (c1_fetch_failure_aborts gsFail jlW emptyFS "2024-01-03" "C" []
      [("2024-01-04", "D")] (.inl rfl) rfl).2⟩

/-- C9: any `ValueError` raised while parsing a day's fetched content —
whether `json.loads` itself fails (malformed JSON) or the parsed document
lacks the required top-level `datasets` key — is caught per day: the error
message is recorded in that day's outcome, both artifact statuses stay
"skip", no file is written for that day (the filesystem is unchanged), and
the loop continues with the remaining days. -/
theorem c9_parse_error_isolated (gs : String → Option String)
    (jl : String → Except String ParsedData) (fs : FS) (date sha raw e : String)
    (acc : List (String × DayStatus)) (rest : List (String × String))
    (hmiss : (fs (dsPath date)).isNone = true ∨ (fs (stPath date)).isNone = true)
    (hgs : gs sha = some raw)
    (hld : load_dataset jl raw = .error e) :
    processDay gs jl false fs (date, sha) = .ok fs (errorStatus date sha e) ∧
    (errorStatus date sha e).dataset = "skip" ∧
    (errorStatus date sha e).stats = "skip" ∧
    (errorStatus date sha e).error = some e ∧
    backfillFrom gs jl false fs acc ((date, sha) :: rest)
      = backfillFrom gs jl false fs (acc ++ [(date, errorStatus date sha e)]) rest ∧
    (∀ raw2 msg, jl raw2 = .error msg → load_dataset jl raw2 = .error msg) ∧
    (∀ raw2 d2, jl raw2 = .ok d2 → d2.hasDatasets = false →
      load_dataset jl raw2 = .error "Missing \x27datasets\x27 key") := by
  have hm : ((fs (dsPath date)).isNone || (fs (stPath date)).isNone) = true := by
    rcases hmiss with h | h <;> simp [h]
  have hp := @processDay_parse_error gs jl fs (date, sha) raw e hm hgs hld
  refine ⟨hp, rfl, rfl, rfl, by simp only [backfillFrom, hp], ?_, ?_⟩
  · intro raw2 msg h2
    simp [load_dataset, h2]
  · intro raw2 d2 h2 hfalse
    simp [load_dataset, h2, hfalse]

/-- Witness for C9: with a `json.loads` oracle that always raises a decode
error, a day over an empty archive directory ends with the error recorded,
skip statuses, an unchanged filesystem, and the loop moving on. -/
theorem c9_parse_error_isolated_witness :
    processDay gsW jlBad false emptyFS ("2024-01-05", "E")
      = .ok emptyFS (errorStatus "2024-01-05" "E" "bad json") ∧
    backfillFrom gsW jlBad false emptyFS [] [("2024-01-05", "E"), ("2024-01-06", "F")]
      = backfillFrom gsW jlBad false emptyFS
          [("2024-01-05", errorStatus "2024-01-05" "E" "bad json")] [("2024-01-06", "F")] ∧
    load_dataset jlBad "x" = .error "bad json" :=
  ⟨(c9_parse_error_isolated gsW jlBad emptyFS "2024-01-05" "E" "raw" "bad json" []
      [("2024-01-06", "F")] (.inl rfl) rfl rfl).1,
   (c9_parse_error_isolated gsW jlBad emptyFS "2024-01-05" "E" "raw" "bad json" []
      [("2024-01-06", "F")] (.inl rfl) rfl rfl).2.2.2.2.1,
   (c9_parse_error_isolated gsW jlBad emptyFS "2024-01-05" "E" "raw" "bad json" []
      [("2024-01-06", "F")] (.inl rfl) rfl rfl).2.2.2.2.2.1 "x" "bad json" rfl⟩

/-- C6: for a day whose content artifact exists on disk while its stats
artifact does not, a non-dry-run backfill over that day (with the fetch
and parse succeeding, the normal-run case) writes exactly the missing
statistics artifact: the result filesystem is the input filesystem updated
only at the statistics path — so the existing content artifact's bytes are
untouched and every other path is unchanged — and the day's outcome
reports the content status `exists` and the stats status `created`.  The
two artifacts are decided and written independently. -/
theorem c6_partial_completion (gs : String → Option String)
    (jl : String → Except String ParsedData) (fs : FS) (date sha raw : String)
    (data : ParsedData)
    (hds : (fs (dsPath date)).isSome = true)
    (hst : fs (stPath date) = none)
    (hgs : gs sha = some raw)
    (hld : load_dataset jl raw = .ok data) :
    backfill gs jl [(date, sha)] false fs =
      .ok (update fs (stPath date) (statsDoc date data))
        [(date, { date := date, commit := sha, dataset := "exists", stats := "created" })] ∧
    (update fs (stPath date) (statsDoc date data)) (dsPath date) = fs (dsPath date) ∧
    (∀ p, p ≠ stPath date → (update fs (stPath date) (statsDoc date data)) p = fs p) := by
  obtain ⟨c, hc⟩ := Option.isSome_iff_exists.1 hds
  have hne : dsPath date ≠ stPath date := by
    intro hEq
    rw [hEq, hst] at hc
    cases hc
  have hm : ((fs (dsPath date)).isNone || (fs (stPath date)).isNone) = true := by
    simp [hst]
  have hp := @processDay_success gs jl fs (date, sha) raw data hm hgs hld
  have hwrite : writeArtifacts fs date data = update fs (stPath date) (statsDoc date data) := by
    simp only [writeArtifacts, statsDoc, hc, hst]
    simp
  have hstatus : createdStatus fs date sha =
      { date := date, commit := sha, dataset := "exists", stats := "created" } := by
    simp [createdStatus, hc, hst]
  refine ⟨?_, update_ne _ _ _ _ hne, fun p hp2 => update_ne _ _ _ _ hp2⟩
  rw [hwrite, hstatus] at hp
  simp only [backfill, backfillFrom, hp, List.nil_append]

/-- Witness for C6: a filesystem holding only the content artifact of day
2024-01-01 gains exactly the statistics artifact, with statuses
`exists`/`created`, and the content path is untouched. -/
theorem c6_partial_completion_witness :
    backfill gsW jlW [("2024-01-01", "A")] false fsDs =
      .ok (update fsDs (stPath "2024-01-01") (statsDoc "2024-01-01" ⟨true, []⟩))
        [("2024-01-01",
          { date := "2024-01-01", commit := "A", dataset := "exists", stats := "created" })] ∧
    (update fsDs (stPath "2024-01-01") (statsDoc "2024-01-01" ⟨true, []⟩)) (dsPath "2024-01-01")
      = fsDs (dsPath "2024-01-01") :=
  ⟨(c6_partial_completion gsW jlW fsDs "2024-01-01" "A" "raw" ⟨true, []⟩ rfl rfl rfl rfl).1,
   (c6_partial_completion gsW jlW fsDs "2024-01-01" "A" "raw" ⟨true, []⟩ rfl rfl rfl rfl).2.1⟩

/-! ### Dry-run behaviour -/

theorem backfillFrom_dry_oracles (gs gs2 : String → Option String)
    (jl jl2 : String → Except String ParsedData) (fsv : FS) :
    ∀ (days : List (String × String)) (acc : List (String × DayStatus)),
      backfillFrom gs jl true fsv acc days = backfillFrom gs2 jl2 true fsv acc days := by
  intro days
  induction days with
  | nil => intro acc; rfl
  | cons day rest ih =>
    intro acc
    simp only [backfillFrom, processDay_dry]
    exact ih _

theorem run_dry (gs : String → Option String) (jl : String → Except String ParsedData)
    (fsv : FS) :
    ∀ (days : List (String × String)) (acc : List (String × DayStatus)),
      ∃ res, backfillFrom gs jl true fsv acc days = .ok fsv res ∧
        (∀ x ∈ acc, x ∈ res) ∧
        (∀ day ∈ days,
          (day.1, if !((fsv (dsPath day.1)).isNone || (fsv (stPath day.1)).isNone)
                  then presentStatus day.1 day.2 else dryStatus fsv day.1 day.2) ∈ res) := by
  intro days
  induction days with
  | nil =>
    intro acc
    exact ⟨acc, rfl, fun x hx => hx, fun day hd => absurd hd (by simp)⟩
  | cons day rest ih =>
    intro acc
    obtain ⟨res, hrun, hacc, hmem⟩ := ih (acc ++
      [(day.1, if !((fsv (dsPath day.1)).isNone || (fsv (stPath day.1)).isNone)
               then presentStatus day.1 day.2 else dryStatus fsv day.1 day.2)])
    refine ⟨res, ?_, ?_, ?_⟩
    · simp only [backfillFrom, processDay_dry]
      exact hrun
    · intro x hx
      exact hacc x (List.mem_append.2 (.inl hx))
    · intro d hd
      rcases List.mem_cons.1 hd with rfl | hd'
      · exact hacc _ (List.mem_append.2 (.inr (by simp)))
      · exact hmem d hd'

/-- C5 counterexample: in dry-run mode, a day whose two artifacts are both
already present does not report `exists` for each present artifact — it
takes the both-present branch first and reports `skip`/`skip` with note
"present", contradicting the claim's "exists for each artifact present". -/
theorem c5_counterexample :
    backfill gsW jlW [("2024-01-01", "A")] true fsBoth
      = .ok fsBoth [("2024-01-01", presentStatus "2024-01-01" "A")] ∧
    (presentStatus "2024-01-01" "A").dataset = "skip" ∧
    (presentStatus "2024-01-01" "A").dataset ≠ "exists" :=
  ⟨rfl, rfl, by decide⟩

/-- C5 (amended): in dry-run mode backfill writes no files (the returned
filesystem is the input one) and performs no content fetch (the result does
not depend on the `git show` or `json.loads` oracles); a day with at least
one artifact missing reports `would_create` for each missing artifact and
`exists` for each present one, while a day with both artifacts present
takes the both-present branch and reports `skip`/`skip` with note
"present".  With an empty archive directory and 3 distinct days this
yields 3 `would_create` content artifacts and 3 `would_create` stats
artifacts, and the archive directory stays empty. -/
theorem c5_dry_run (gs gs2 : String → Option String)
    (jl jl2 : String → Except String ParsedData)
    (mapping : List (String × String)) (fs : FS) :
    backfill gs jl mapping true fs = backfill gs2 jl2 mapping true fs ∧
    ∃ res, backfill gs jl mapping true fs = .ok fs res ∧
      ∀ day ∈ mapping,
        (day.1, if !((fs (dsPath day.1)).isNone || (fs (stPath day.1)).isNone)
                then presentStatus day.1 day.2 else dryStatus fs day.1 day.2) ∈ res := by
  constructor
  · exact backfillFrom_dry_oracles gs gs2 jl jl2 fs mapping []
  · obtain ⟨res, hrun, _, hmem⟩ := run_dry gs jl fs mapping []
    exact ⟨res, hrun, hmem⟩

/-- Witness for C5 (amended): over an empty archive directory and the
3-day mapping, the dry run returns the unchanged (empty) filesystem, the
result does not depend on the oracles (no fetch), day 2024-01-01's outcome
is its dry-run status, and concretely all 3 days report `would_create` for
both artifacts. -/
theorem c5_dry_run_witness :
    backfill gsFail jlBad [("2024-01-01", "A"), ("2024-01-02", "B"), ("2024-01-03", "C")]
        true emptyFS
      = backfill gsW jlW [("2024-01-01", "A"), ("2024-01-02", "B"), ("2024-01-03", "C")]
        true emptyFS ∧
    ("2024-01-01", dryStatus emptyFS "2024-01-01" "A") ∈
      (backfill gsFail jlBad
        [("2024-01-01", "A"), ("2024-01-02", "B"), ("2024-01-03", "C")] true emptyFS).results ∧
    backfill gsFail jlBad [("2024-01-01", "A"), ("2024-01-02", "B"), ("2024-01-03", "C")]
        true emptyFS
      = .ok emptyFS
          [("2024-01-01", dryStatus emptyFS "2024-01-01" "A"),
           ("2024-01-02", dryStatus emptyFS "2024-01-02" "B"),
           ("2024-01-03", dryStatus emptyFS "2024-01-03" "C")] ∧
    dryStatus emptyFS "2024-01-01" "A"
      = { date := "2024-01-01", commit := "A",
          dataset := "would_create", stats := "would_create" } := by
  obtain ⟨h1, res, hrun, hmem⟩ := c5_dry_run gsFail gsW jlBad jlW
    [("2024-01-01", "A"), ("2024-01-02", "B"), ("2024-01-03", "C")] emptyFS
  refine ⟨h1, ?_, rfl, rfl⟩
  have hm := hmem ("2024-01-01", "A") (by simp)
  rw [hrun]
  simpa [emptyFS] using hm

/-- C7: `choose_daily` validates the strategy before building any mapping:
for every value outside {first, last} it fails with the `ValueError`
"strategy must be last or first", and for the two valid values it never
raises — it returns a mapping. -/
theorem c7_strategy_validation (commits : List (String × String)) (s : String) :
    (¬ (s = "last" ∨ s = "first") →
      choose_daily commits s = .error "strategy must be last or first") ∧
    ((s = "last" ∨ s = "first") → ∃ m, choose_daily commits s = .ok m) := by
  constructor
  · intro h
    unfold choose_daily
    rw [if_neg h]
  · intro h
    refine ⟨chooseDailyGo s commits.reverse [], ?_⟩
    unfold choose_daily
    rw [if_pos h]

/-- Witness for C7: the strategy "weird" is rejected with the exact error
message, while "last" succeeds. -/
theorem c7_strategy_validation_witness :
    choose_daily [("A", "2024-01-01")] "weird" = .error "strategy must be last or first" ∧
    (choose_daily [("A", "2024-01-01")] "last").toOption.isSome = true := by
  refine ⟨(c7_strategy_validation [("A", "2024-01-01")] "weird").1 (by decide), ?_⟩
  obtain ⟨m, hm⟩ := (c7_strategy_validation [("A", "2024-01-01")] "last").2 (Or.inl rfl)
  rw [hm]
  rfl

/-- C8 counterexample: with a valid invocation environment (the `.git`
directory check passes, `isGitRoot = true`) but a `git log` invocation
that reports failure, the program still exits with code 1 — so exit code 1
does not happen exactly when the invocation environment is invalid. -/
theorem c8_counterexample :
    (mainRun true none gsW jlW false "last" emptyFS).2 = 1 := rfl

/-- C8 (amended): the program exits with code 1 when the invocation
environment is invalid (not run at the root of a version-controlled
working copy) — checked before any history is queried, so the `git log`
oracle is never consulted — and also when the version-control tool itself
reports failure.  When the environment is valid and the tracked file has
no revisions at all, the run prints an informational message and exits
cleanly with code 0 without processing any day (the filesystem is
untouched). -/
theorem c8_exit_codes (gitLog : Option String) (gs : String → Option String)
    (jl : String → Except String ParsedData) (dry : Bool) (strat : String)
    (fs : FS) (out : String) (hempty : get_commits out = []) :
    mainRun false gitLog gs jl dry strat fs = (fs, 1) ∧
    mainRun true none gs jl dry strat fs = (fs, 1) ∧
    mainRun true (some out) gs jl dry strat fs = (fs, 0) := by
  refine ⟨rfl, rfl, ?_⟩
  simp [mainRun, hempty]

/-- Witness for C8 (amended): concrete runs for the three cases, with the
empty `git log` output discharging the no-history hypothesis. -/
theorem c8_exit_codes_witness :
    mainRun false (some "log") gsW jlW false "last" emptyFS = (emptyFS, 1) ∧
    mainRun true none gsW jlW false "last" emptyFS = (emptyFS, 1) ∧
    mainRun true (some "") gsW jlW false "last" emptyFS = (emptyFS, 0) :=
  ⟨(c8_exit_codes (some "log") gsW jlW false "last" emptyFS "" rfl).1,
   (c8_exit_codes (some "log") gsW jlW false "last" emptyFS "" rfl).2.1,
   (c8_exit_codes (some "log") gsW jlW false "last" emptyFS "" rfl).2.2⟩

/-- C2 counterexample: a single record whose language list holds two
copies of the same tag has exactly one distinct language tag, yet
`compute_statistics` reports `multilingual_count = 1`: the script compares
the plain list length, duplicates included, not the number of distinct
entries as the claim states. -/
theorem c2_counterexample :
    (compute_statistics [⟨none, none, some ["ja", "ja"]⟩]).multilingual_count = 1 ∧
    multilingual_distinct_count [⟨none, none, some ["ja", "ja"]⟩] = 0 ∧
    (compute_statistics [⟨none, none, some ["ja", "ja"]⟩]).multilingual_count ≠
      multilingual_distinct_count [⟨none, none, some ["ja", "ja"]⟩] := by
  refine ⟨by decide, by decide, by decide⟩

/-- C2 (amended): for every record list the statistics reducer returns the
record count in `total_datasets`, the sums of the per-record download and
like fields (missing fields contributing 0, characterized here by the
empty-list base case together with the one-step recurrences) in
`total_downloads` and `total_likes`, and in `multilingual_count` the
number of records whose language list has length greater than one —
duplicates included, so a record with two copies of the same tag is
counted as multilingual.  On the specification's own example the reducer
yields `total_datasets = 2, total_downloads = 15, total_likes = 2,
multilingual_count = 1`. -/
theorem c2_statistics_formulas (ds : List DatasetRecord) (d : DatasetRecord) :
    (compute_statistics ds).total_datasets = ds.length ∧
    compute_statistics [] = ⟨0, 0, 0, 0⟩ ∧
    (compute_statistics (d :: ds)).total_downloads
      = d.downloads.getD 0 + (compute_statistics ds).total_downloads ∧
    (compute_statistics (d :: ds)).total_likes
      = d.likes.getD 0 + (compute_statistics ds).total_likes ∧
    (compute_statistics (d :: ds)).multilingual_count
      = (if 1 < (d.languages.getD []).length then 1 else 0)
        + (compute_statistics ds).multilingual_count ∧
    compute_statistics
        [⟨some 10, some 2, some ["ja"]⟩, ⟨some 5, none, some ["ja", "en"]⟩]
      = ⟨2, 15, 2, 1⟩ := by
  refine ⟨rfl, rfl, ?_, ?_, ?_, by decide⟩
  · simp [compute_statistics]
  · simp [compute_statistics]
  · by_cases h : 1 < (d.languages.getD []).length <;>
      simp [compute_statistics, List.filter_cons, h, Nat.add_comm]

/-! ### Keys of the daily selection mapping -/

theorem updateVal_keys (m : List (String × String)) (k v : String) :
    (updateVal m k v).map Prod.fst = m.map Prod.fst := by
  induction m with
  | nil => rfl
  | cons p rest ih =>
    obtain ⟨a, b⟩ := p
    simp only [updateVal]
    split <;> simp [ih]

theorem chooseDailyGo_keys (s : String) :
    ∀ (l acc : List (String × String)),
      (chooseDailyGo s l acc).map Prod.fst
        = (l.map Prod.snd).foldl insertNew (acc.map Prod.fst) := by
  intro l
  induction l with
  | nil => intro acc; rfl
  | cons p rest ih =>
    intro acc
    obtain ⟨sha, date⟩ := p
    simp only [chooseDailyGo, List.map_cons, List.foldl_cons]
    by_cases hm : date ∈ acc.map Prod.fst
    · rw [if_pos hm]
      have hins : insertNew (acc.map Prod.fst) date = acc.map Prod.fst := by
        simp [insertNew, hm]
      split
      · rw [ih (updateVal acc date sha), updateVal_keys, hins]
      · rw [ih acc, hins]
    · rw [if_neg hm]
      have hins : insertNew (acc.map Prod.fst) date = acc.map Prod.fst ++ [date] := by
        simp [insertNew, hm]
      rw [ih (acc ++ [(date, sha)]), hins]
      simp

theorem mem_foldl_insertNew (x : String) :
    ∀ (ds ks : List String), (x ∈ ds.foldl insertNew ks) ↔ (x ∈ ks ∨ x ∈ ds) := by
  intro ds
  induction ds with
  | nil => intro ks; simp
  | cons d rest ih =>
    intro ks
    rw [List.foldl_cons, ih]
    unfold insertNew
    split
    · rename_i hd
      constructor
      · rintro (hk | hr)
        · exact .inl hk
        · exact .inr (List.mem_cons_of_mem _ hr)
      · rintro (hk | hr)
        · exact .inl hk
        · rcases List.mem_cons.1 hr with rfl | hr'
          · exact .inl hd
          · exact .inr hr'
    · rename_i hd
      constructor
      · rintro (hk | hr)
        · rcases List.mem_append.1 hk with h1 | h2
          · exact .inl h1
          · exact .inr (List.mem_cons.2 (.inl (by simpa using h2)))
        · exact .inr (List.mem_cons_of_mem _ hr)
      · rintro (hk | hr)
        · exact .inl (List.mem_append.2 (.inl hk))
        · rcases List.mem_cons.1 hr with rfl | hr'
          · exact .inl (List.mem_append.2 (.inr (by simp)))
          · exact .inr hr'

theorem nodup_foldl_insertNew :
    ∀ (ds ks : List String), ks.Nodup → (ds.foldl insertNew ks).Nodup := by
  intro ds
  induction ds with
  | nil => intro ks h; simpa using h
  | cons d rest ih =>
    intro ks hks
    rw [List.foldl_cons]
    refine ih _ ?_
    unfold insertNew
    split
    · exact hks
    · rename_i hd
      simp [List.nodup_append, hks, hd]

/-- C3 counterexample: `choose_daily` expects its input in the newest-first
order produced by the revision lister and reverses it internally.  Handing
it the claim's oldest-first list `[(A, 2024-01-01), (B, 2024-01-01),
(C, 2024-01-02)]` with strategy `first` therefore yields a mapping whose
value at 2024-01-01 is B, not the claimed A (and whose insertion order is
newest day first). -/
theorem c3_counterexample :
    choose_daily [("A", "2024-01-01"), ("B", "2024-01-01"), ("C", "2024-01-02")] "first"
      = .ok [("2024-01-02", "C"), ("2024-01-01", "B")] ∧
    [("2024-01-02", "C"), ("2024-01-01", "B")].lookup "2024-01-01" = some "B" ∧
    some "B" ≠ some "A" :=
  ⟨rfl, by decide, by decide⟩

/-- C3 (amended): `choose_daily` consumes the revision list in the
newest-first order the revision lister produces and processes its reversal
oldest-first, mapping each distinct calendar day to exactly one revision
id: for newest-first input `[(C, 2024-01-02), (B, 2024-01-01),
(A, 2024-01-01)]` strategy `first` yields `{2024-01-01: A, 2024-01-02: C}`
(the chronologically earliest revision of each day) and strategy `last`
yields `{2024-01-01: B, 2024-01-02: C}` (the latest); in general, for any
accepted strategy, the mapping's keys are exactly the distinct days of the
input — each present day exactly once (no duplicate keys) — in order of
first occurrence of the day in the reversed (oldest-first) traversal. -/
theorem c3_choose_daily_spec :
    choose_daily [("C", "2024-01-02"), ("B", "2024-01-01"), ("A", "2024-01-01")] "first"
      = .ok [("2024-01-01", "A"), ("2024-01-02", "C")] ∧
    choose_daily [("C", "2024-01-02"), ("B", "2024-01-01"), ("A", "2024-01-01")] "last"
      = .ok [("2024-01-01", "B"), ("2024-01-02", "C")] ∧
    (∀ (commits : List (String × String)) (s : String) (m : List (String × String)),
      choose_daily commits s = .ok m →
      m.map Prod.fst = firstOccurrences (commits.reverse.map Prod.snd) ∧
      (m.map Prod.fst).Nodup ∧
      (∀ date, date ∈ m.map Prod.fst ↔ date ∈ commits.map Prod.snd)) := by
  refine ⟨rfl, rfl, ?_⟩
  intro commits s m hm
  unfold choose_daily at hm
  split at hm
  · obtain rfl : chooseDailyGo s commits.reverse [] = m := by
      cases hm; rfl
    refine ⟨?_, ?_, ?_⟩
    · rw [chooseDailyGo_keys]
      rfl
    · rw [chooseDailyGo_keys]
      exact nodup_foldl_insertNew _ _ List.nodup_nil
    · intro date
      rw [chooseDailyGo_keys]
      show date ∈ (commits.reverse.map Prod.snd).foldl insertNew (([] : List (String × String)).map Prod.fst) ↔ _
      rw [mem_foldl_insertNew]
      simp
  · exact (Except.noConfusion hm)

/-- Witness for C3 (amended): the general key characterization applied to
the concrete newest-first example run. -/
theorem c3_choose_daily_spec_witness :
    [("2024-01-01", "A"), ("2024-01-02", "C")].map Prod.fst
      = firstOccurrences
          ([("C", "2024-01-02"), ("B", "2024-01-01"), ("A", "2024-01-01")].reverse.map Prod.snd) ∧
    ([("2024-01-01", "A"), ("2024-01-02", "C")].map Prod.fst).Nodup := by
  obtain ⟨hkeys, hnodup, _⟩ := c3_choose_daily_spec.2.2
    [("C", "2024-01-02"), ("B", "2024-01-01"), ("A", "2024-01-01")] "first"
    [("2024-01-01", "A"), ("2024-01-02", "C")] rfl
  exact ⟨hkeys, hnodup⟩

/-! ### The revision lister's line filter -/

theorem filterMap_parse (ls : List String) :
    ls.filterMap (fun line =>
      match pySplit line with
      | a :: b :: _ => some (a, b)
      | _ => none)
    = (ls.filter (fun l => decide (2 ≤ (pySplit l).length))).map
        (fun l => ((pySplit l).headD "", ((pySplit l).drop 1).headD "")) := by
  induction ls with
  | nil => rfl
  | cons l rest ih =>
    rcases hp : pySplit l with _ | ⟨a, _ | ⟨b, t⟩⟩ <;>
      simp [List.filterMap_cons, List.filter_cons, hp, ih]

/-- C10: the revision lister keeps exactly the lines of the tool's output
that split into at least two whitespace-separated fields, taking the first
field as the revision id and the second as the commit date; every other
line — and in particular an empty output, which yields the empty commit
list — is silently dropped rather than causing an error.  The concrete run
shows a one-field line, an empty line, and an extra trailing field being
handled. -/
theorem c10_get_commits (out : String) :
    get_commits out
      = ((splitLines out).filter (fun l => decide (2 ≤ (pySplit l).length))).map
          (fun l => ((pySplit l).headD "", ((pySplit l).drop 1).headD "")) ∧
    get_commits "" = [] ∧
    get_commits "abc 2024-01-01\nmergecommit\n\nxyz   2024-01-02 extra"
      = [("abc", "2024-01-01"), ("xyz", "2024-01-02")] :=
  ⟨filterMap_parse (splitLines out), rfl, by decide⟩

end Backfill
